import Mathlib

set_option maxRecDepth 10000

/-!
Shallow embedding of the submission-intake and metadata-read lambdas of the
Digital Multi-Agent Academic Integrity Intelligence Network repository.

Byte strings (Python `bytes`) are modelled as `List Nat` with entries < 256;
Python `str` values flowing through the intake pipeline are modelled as
`List Nat` of Unicode code points, and `str` values in the metadata reader as
Lean `String` / `List Char`.  External collaborators (S3, DynamoDB, the audit
lambda, `hashlib`, `uuid`, clocks) are modelled as explicit parameters and an
effect trace.
-/

namespace S2P

/-- Python `bytes` (and, where noted, code-point strings): a list of naturals. -/
abbrev ByteL := List Nat

/-- ASCII view of a Lean string literal as a `ByteL` (used for the ASCII
literals appearing in the source). -/
def strB (s : String) : ByteL := s.data.map Char.toNat

/-- Whitespace bytes stripped by Python `bytes.strip()`:
`b" \t\n\r\x0b\x0c"`. -/
def byteWs (b : Nat) : Bool :=
  b = 32 || b = 9 || b = 10 || b = 13 || b = 11 || b = 12

/-- Code points for which Python `str.isspace()` holds (the set stripped by
`str.strip()` and used as separators by `str.split()`). -/
def cpWs (c : Nat) : Bool :=
  (9 ≤ c && c ≤ 13) || (28 ≤ c && c ≤ 31) || c = 32 || c = 133 || c = 160 ||
  c = 5760 || (8192 ≤ c && c ≤ 8202) || c = 8232 || c = 8233 ||
  c = 8239 || c = 8287 || c = 12288

/-- Strip elements satisfying `p` from both ends of a list (Python
`strip`). -/
def stripWith (p : Nat → Bool) (l : List Nat) : List Nat :=
  ((l.dropWhile p).reverse.dropWhile p).reverse

/-- Python `bytes.strip()` with no argument. -/
def bstrip (l : ByteL) : ByteL := stripWith byteWs l

/-- Python `str.strip()` with no argument, on code points. -/
def cpStrip (l : ByteL) : ByteL := stripWith cpWs l

/-- Does `l` start with `pre`? -/
def startsWithL : ByteL → ByteL → Bool
  | _, [] => true
  | [], _ :: _ => false
  | a :: as, b :: bs => a = b && startsWithL as bs

/-- Index of the first occurrence of the (nonempty in all uses) byte
sequence `sep` in `l`, if any. -/
def findSeqIdx (sep : ByteL) : ByteL → Option Nat
  | [] => if sep = [] then some 0 else none
  | x :: xs =>
    if startsWithL (x :: xs) sep then some 0
    else (findSeqIdx sep xs).map (· + 1)

/-- Python `a in b` on byte strings. -/
def containsSeq (l sep : ByteL) : Bool := (findSeqIdx sep l).isSome

/-- Python `l.split(sep, 1)`: split on the first occurrence of `sep`. -/
def splitOnFirst (sep l : ByteL) : Option (ByteL × ByteL) :=
  (findSeqIdx sep l).map fun i => (l.take i, l.drop (i + sep.length))

/-- Fuelled worker for `splitOnSeq` (fuel bounds the number of separator
occurrences; `splitOnSeq` always supplies enough). -/
def splitOnSeqAux (sep : ByteL) : Nat → ByteL → List ByteL
  | 0, l => [l]
  | fuel + 1, l =>
    match findSeqIdx sep l with
    | none => [l]
    | some i => l.take i :: splitOnSeqAux sep fuel (l.drop (i + sep.length))

/-- Python `bytes.split(sep)` for a nonempty separator: split on every
non-overlapping occurrence, left to right. -/
def splitOnSeq (sep l : ByteL) : List ByteL := splitOnSeqAux sep (l.length + 1) l

/-- One step of strict UTF-8 decoding (as CPython's `bytes.decode("utf-8")`):
consume one scalar value, rejecting overlong forms, surrogates and
out-of-range sequences.  Returns the code point and the remaining bytes. -/
def utf8Step : ByteL → Option (Nat × ByteL)
  | [] => none
  | b :: rest =>
    if b < 128 then some (b, rest)
    else if 194 ≤ b && b ≤ 223 then
      match rest with
      | b1 :: r1 =>
        if 128 ≤ b1 && b1 ≤ 191 then some ((b - 192) * 64 + (b1 - 128), r1)
        else none
      | [] => none
    else if 224 ≤ b && b ≤ 239 then
      match rest with
      | b1 :: b2 :: r2 =>
        let lo1 := if b = 224 then 160 else 128
        let hi1 := if b = 237 then 159 else 191
        if (lo1 ≤ b1 && b1 ≤ hi1) && (128 ≤ b2 && b2 ≤ 191) then
          some ((b - 224) * 4096 + (b1 - 128) * 64 + (b2 - 128), r2)
        else none
      | _ => none
    else if 240 ≤ b && b ≤ 244 then
      match rest with
      | b1 :: b2 :: b3 :: r3 =>
        let lo1 := if b = 240 then 144 else 128
        let hi1 := if b = 244 then 143 else 191
        if (lo1 ≤ b1 && b1 ≤ hi1) && (128 ≤ b2 && b2 ≤ 191)
            && (128 ≤ b3 && b3 ≤ 191) then
          some ((b - 240) * 262144 + (b1 - 128) * 4096 + (b2 - 128) * 64
                + (b3 - 128), r3)
        else none
      | _ => none
    else none

/-- Fuelled worker for `utf8Decode`; each `utf8Step` consumes at least one
byte, so fuel `l.length` always suffices. -/
def utf8DecodeAux : Nat → ByteL → Option ByteL
  | _, [] => some []
  | 0, _ :: _ => none
  | fuel + 1, l@(_ :: _) =>
    match utf8Step l with
    | none => none
    | some (cp, rest) => (utf8DecodeAux fuel rest).map (cp :: ·)

/-- Strict UTF-8 decoding of a byte string into code points
(Python `value.decode("utf-8")`; `none` models `UnicodeDecodeError`). -/
def utf8Decode (l : ByteL) : Option ByteL := utf8DecodeAux l.length l

/-! ## Multipart decoder (`_parse_multipart` in intake-handler) -/

/-- One decoded part: raw content bytes and the optional filename
(`filename=""` is `some []`, distinct from absent). -/
structure PartEntry where
  value : ByteL
  filename : Option ByteL
  deriving Repr, DecidableEq

/-- The decoded part mapping, keyed by field name (a Python `dict`). -/
abbrev PartsDict := List (ByteL × PartEntry)

/-- Python `d[k] = v`: replace the binding in place if the key is present,
otherwise append it. -/
def dictInsert (k : ByteL) (v : PartEntry) : PartsDict → PartsDict
  | [] => [(k, v)]
  | (k', v') :: t => if k' = k then (k, v) :: t else (k', v') :: dictInsert k v t

/-- Python `d.get(k)` / `k in d`. -/
def dictGet (k : ByteL) : PartsDict → Option PartEntry
  | [] => none
  | (k', v') :: t => if k' = k then some v' else dictGet k t

/-- Leftmost match of the regex `attr"([^"]+)"` (or `[^"]*` when
`allowEmpty`) in a header block, where `pat` is the bytes of `attr` followed
by the opening quote: at each start position the literal prefix must match,
the capture runs to the next quote, which must exist, and must be nonempty
unless `allowEmpty`. -/
def searchAttr (pat : ByteL) (allowEmpty : Bool) : ByteL → Option ByteL
  | [] => none
  | x :: xs =>
    if startsWithL (x :: xs) pat then
      let rest := (x :: xs).drop pat.length
      let content := rest.takeWhile (fun b => b ≠ 34)
      if content.length < rest.length && (allowEmpty || !content.isEmpty) then
        some content
      else searchAttr pat allowEmpty xs
    else searchAttr pat allowEmpty xs

/-- The `name="..."` capture of a header block (`re.search(r'name="([^"]+)"')`,
nonempty capture). -/
def headerName (hdr : ByteL) : Option ByteL :=
  searchAttr (strB "name=\"") false hdr

/-- The `filename="..."` capture of a header block (capture may be empty). -/
def headerFilename (hdr : ByteL) : Option ByteL :=
  searchAttr (strB "filename=\"") true hdr

/-- Process one segment produced by splitting the body on the delimiter:
`none` when the loop body hits a `continue` (preamble/closing-delimiter
artifact, no blank-line separator, or no parseable field name), otherwise the
(field name, part entry) pair that is written into the dict. -/
def segmentEntry (part : ByteL) : Option (ByteL × PartEntry) :=
  if part = [] || (bstrip part = [] || bstrip part = strB "--"
      || bstrip part = strB "--\r\n") then
    none
  else
    let split? :=
      match splitOnFirst (strB "\r\n\r\n") part with
      | some hb => some hb
      | none => splitOnFirst (strB "\n\n") part
    match split? with
    | none => none
    | some (rawHeaders, rawBody) =>
      let body :=
        if startsWithL rawBody.reverse (strB "\r\n").reverse then
          rawBody.take (rawBody.length - 2)
        else rawBody
      match headerName rawHeaders with
      | none => none
      | some fieldName => some (fieldName, ⟨body, headerFilename rawHeaders⟩)

/-- One iteration of the parse loop: fold a segment into the dict. -/
def processPart (d : PartsDict) (part : ByteL) : PartsDict :=
  match segmentEntry part with
  | none => d
  | some (k, v) => dictInsert k v d

/-- Leftmost match of `boundary=([^\s;]+)` in the Content-Type header: at
each position the literal `boundary=` must be followed by at least one
character that is neither whitespace nor `;`. -/
def searchBoundaryTok : ByteL → Option ByteL
  | [] => none
  | x :: xs =>
    if startsWithL (x :: xs) (strB "boundary=") then
      let tok := ((x :: xs).drop 9).takeWhile (fun c => !cpWs c && c ≠ 59)
      if tok.isEmpty then searchBoundaryTok xs else some tok
    else searchBoundaryTok xs

/-- Boundary extraction: the regex capture with surrounding double then
single quotes stripped (`match.group(1).strip('"').strip("'")`). -/
def extractBoundary (contentType : ByteL) : Option ByteL :=
  (searchBoundaryTok contentType).map fun tok =>
    stripWith (fun c => c = 39) (stripWith (fun c => c = 34) tok)

/-- `_parse_multipart`: extract the boundary (failing with the
`ValueError` message when absent), split the body on `--<boundary>`, and fold
every segment into the part dict. -/
def parseMultipart (contentType : ByteL) (bodyBytes : ByteL) :
    Except String PartsDict :=
  match extractBoundary contentType with
  | none => .error "Missing boundary in Content-Type header"
  | some boundary =>
    .ok ((splitOnSeq (strB "--" ++ boundary) bodyBytes).foldl processPart [])

/-- ASCII lower-casing of one code point. -/
def asciiLower (b : Nat) : Nat := if 65 ≤ b && b ≤ 90 then b + 32 else b

/-- ASCII lower-casing of a string (Python `str.lower()` restricted to the
ASCII range, which covers every extension in the allow-list). -/
def lowerL (l : ByteL) : ByteL := l.map asciiLower

/-! ## Intake validation (`_get_extension` and steps 4-6 of the handler) -/

/-- The suffix of a filename starting at its last `.` (code point 46), if the
filename contains one (`filename[filename.rfind("."):]`). -/
def takeFromLastDot : ByteL → Option ByteL
  | [] => none
  | c :: cs =>
    match takeFromLastDot cs with
    | some s => some s
    | none => if c = 46 then some (c :: cs) else none

/-- `_get_extension`: the lower-cased extension including the dot, or the
empty string when the filename has no dot (`rfind` returns -1). -/
def getExtension (filename : ByteL) : ByteL :=
  match takeFromLastDot filename with
  | none => []
  | some s => lowerL s

/-- `ALLOWED_EXTENSIONS` of the intake handler. -/
def allowedExtensions : List ByteL :=
  [strB ".pdf", strB ".docx", strB ".txt", strB ".py", strB ".java",
   strB ".cpp", strB ".c", strB ".js", strB ".html", strB ".css",
   strB ".ipynb", strB ".tex"]

/-- Outcome of steps 4-6 of the intake handler on a decoded part mapping.
`unicodeError` records a `UnicodeDecodeError` raised while decoding one of
the three identifier fields (handled only by the top-level
`except Exception`). -/
inductive VRes
  | missingFile
  | missingField (f : ByteL)
  | unicodeError
  | emptyIdentifier
  | badExtension (ext : ByteL)
  | tooLarge (size limit : Nat)
  | ok (fileBytes fileName studentId courseId sectionId ext : ByteL)
  deriving Repr, DecidableEq

/-- Steps 4-6 of `lambda_handler` (intake): required-parts checks, identifier
decoding and trimming, extension allow-list, size ceiling — exactly in the
source's order, short-circuiting at the first failure. -/
def validate (parts : PartsDict) (maxFileSize : Nat) : VRes :=
  match dictGet (strB "file") parts with
  | none => .missingFile
  | some fileEntry =>
    match fileEntry.filename with
    | none => .missingFile
    | some fname =>
      match dictGet (strB "student_id") parts with
      | none => .missingField (strB "student_id")
      | some se =>
        match dictGet (strB "course_id") parts with
        | none => .missingField (strB "course_id")
        | some ce =>
          match dictGet (strB "section_id") parts with
          | none => .missingField (strB "section_id")
          | some xe =>
            match utf8Decode se.value with
            | none => .unicodeError
            | some sraw =>
              match utf8Decode ce.value with
              | none => .unicodeError
              | some craw =>
                match utf8Decode xe.value with
                | none => .unicodeError
                | some xraw =>
                  let sid := cpStrip sraw
                  let cid := cpStrip craw
                  let xid := cpStrip xraw
                  if sid = [] || cid = [] || xid = [] then .emptyIdentifier
                  else
                    let ext := getExtension fname
                    if !allowedExtensions.contains ext then .badExtension ext
                    else if fileEntry.value.length > maxFileSize then
                      .tooLarge fileEntry.value.length maxFileSize
                    else .ok fileEntry.value fname sid cid xid ext

/-! ## Intake orchestration (`lambda_handler` of intake-handler) -/

/-- Static configuration of the intake handler (environment variables). -/
structure IntakeCfg where
  rawBucket : ByteL
  maxFileSize : Nat
  auditFnName : ByteL
  deriving Repr

/-- External collaborators of one intake invocation: outcomes of the S3 put,
the DynamoDB put and the audit invoke, plus the generated UUID, the captured
timestamp and the SHA-256 hex digest function (`hashlib`). -/
structure IntakeDeps where
  s3Ok : Bool
  ddbOk : Bool
  auditOk : Bool
  submissionId : ByteL
  timestamp : ByteL
  sha256Hex : ByteL → ByteL

/-- The inbound event, after API-Gateway unwrapping: the HTTP method, the
coalesced Content-Type header, the raw body bytes (base64 already undone;
the empty list models a falsy `body`), and the authorizer claims. -/
structure IntakeEvent where
  httpMethod : ByteL
  contentType : ByteL
  body : ByteL
  sub : Option ByteL
  email : Option ByteL

/-- Observable side effects of one intake invocation, in order of
occurrence.  An effect records an *attempt*; the audit effect carries the
outcome of the asynchronous invoke (swallowed by the handler). -/
inductive IEffect
  | s3Put (key : ByteL)
  | ddbPut (submissionId studentId : ByteL)
  | auditInvoke (eventType : ByteL) (ok : Bool)
  deriving Repr, DecidableEq

/-- Response bodies of the intake handler, one constructor per `return`
site, carrying the data interpolated into the JSON body. -/
inductive IBody
  | msgOK
  | errEmptyBody
  | errContentType
  | errMalformed (e : String)
  | errMissingFile
  | errMissingField (f : ByteL)
  | errEmptyIdentifiers
  | errInvalidType (ext : ByteL)
  | errTooLarge (size limit : Nat)
  | errS3
  | errDdb
  | errInternal
  | uploaded (submissionId fileName : ByteL) (fileSize : Nat)
      (sha256Hash uploadTimestamp : ByteL)
  deriving Repr, DecidableEq

/-- An API-Gateway response of the intake handler. -/
structure IResp where
  status : Nat
  body : IBody
  deriving Repr, DecidableEq

/-- `lambda_handler` of the intake handler: CORS preflight, body and
Content-Type checks, multipart parse, validation, then S3 put, DynamoDB put
and best-effort audit invoke, returning the response together with the trace
of storage/audit attempts. -/
def intakeHandler (cfg : IntakeCfg) (deps : IntakeDeps) (ev : IntakeEvent) :
    IResp × List IEffect :=
  if ev.httpMethod = strB "OPTIONS" then (⟨200, .msgOK⟩, [])
  else if ev.body = [] then (⟨400, .errEmptyBody⟩, [])
  else if !containsSeq ev.contentType (strB "multipart/form-data") then
    (⟨400, .errContentType⟩, [])
  else
    match parseMultipart ev.contentType ev.body with
    | .error e => (⟨400, .errMalformed e⟩, [])
    | .ok parts =>
      match validate parts cfg.maxFileSize with
      | .missingFile => (⟨400, .errMissingFile⟩, [])
      | .missingField f => (⟨400, .errMissingField f⟩, [])
      | .unicodeError => (⟨500, .errInternal⟩, [])
      | .emptyIdentifier => (⟨400, .errEmptyIdentifiers⟩, [])
      | .badExtension ext => (⟨400, .errInvalidType ext⟩, [])
      | .tooLarge size limit => (⟨413, .errTooLarge size limit⟩, [])
      | .ok fileBytes fname sid _cid _xid _ext =>
        let s3Key := strB "submissions/" ++ sid ++ strB "/"
          ++ deps.submissionId ++ strB "/" ++ fname
        let fx0 := [IEffect.s3Put s3Key]
        if !deps.s3Ok then (⟨500, .errS3⟩, fx0)
        else
          let fx1 := fx0 ++ [IEffect.ddbPut deps.submissionId sid]
          if !deps.ddbOk then (⟨500, .errDdb⟩, fx1)
          else
            let fx2 :=
              if cfg.auditFnName ≠ [] then
                fx1 ++ [IEffect.auditInvoke (strB "UPLOAD") deps.auditOk]
              else fx1
            (⟨200, .uploaded deps.submissionId fname fileBytes.length
                (deps.sha256Hex fileBytes) deps.timestamp⟩, fx2)

/-! ## Metadata reader (`get-submission-metadata`) -/

/-- `str.isspace` on a `Char`. -/
def chWs (c : Char) : Bool := cpWs c.toNat

/-- Worker for Python `str.split()` with no argument: split on runs of
whitespace, discarding empty tokens; `acc` holds the current token
reversed. -/
def pySplitWsAux (acc : List Char) : List Char → List (List Char)
  | [] => if acc = [] then [] else [acc.reverse]
  | c :: cs =>
    if chWs c then
      if acc = [] then pySplitWsAux [] cs
      else acc.reverse :: pySplitWsAux [] cs
    else pySplitWsAux (c :: acc) cs

/-- Python `s.split()` with no argument. -/
def pySplitWs (l : List Char) : List (List Char) := pySplitWsAux [] l

/-- Python `str.strip()` on a character list. -/
def chStrip (l : List Char) : List Char :=
  ((l.dropWhile chWs).reverse.dropWhile chWs).reverse

/-- `_user_in_group`: a falsy (empty) groups claim never matches; otherwise
commas are replaced by spaces, the string is split on whitespace, each token
is stripped, and membership of `groupName` in the token list is tested. -/
def userInGroup (groupsRaw : String) (groupName : String) : Bool :=
  if groupsRaw = "" then false
  else
    let groups :=
      (pySplitWs (groupsRaw.data.map fun c => if c = ',' then ' ' else c)).map
        chStrip
    groups.contains groupName.data

/-- A DynamoDB item, as the assoc list of its attributes. -/
abbrev MItem := List (String × String)

/-- `item.get(k)` on a record. -/
def itemGet (k : String) : MItem → Option String
  | [] => none
  | (k', v) :: t => if k' = k then some v else itemGet k t

/-- The three-way outcome of the authorisation block (step 4 of the
metadata handler). -/
inductive Decision
  | allowPriv
  | allowOwner
  | deny
  deriving Repr, DecidableEq

/-- The access decision of the metadata reader: Faculty or Admin membership
grants privileged access; otherwise Students membership grants access iff
the record's `student_id` equals the caller's `sub`; otherwise deny. -/
def accessDecision (groupsRaw sub : String) (item : MItem) : Decision :=
  if userInGroup groupsRaw "Faculty" || userInGroup groupsRaw "Admin" then
    .allowPriv
  else if userInGroup groupsRaw "Students" then
    if itemGet "student_id" item ≠ some sub then .deny else .allowOwner
  else .deny

/-- Outcome of the DynamoDB `get_item` call. -/
inductive MLookup
  | clientError
  | absent
  | found (item : MItem)

/-- Outcome of the asynchronous audit invoke as seen by
`_invoke_audit_logger`, which catches only `ClientError`: any other
exception type escapes the handler. -/
inductive AuditOutcome
  | ok
  | clientError
  | otherError
  deriving Repr, DecidableEq

/-- External collaborators of one metadata-read invocation. -/
structure MDeps where
  lookup : MLookup
  audit : AuditOutcome

/-- The inbound metadata-read event: the `id` path parameter and the
authorizer claims (each defaulting to the empty string when absent, as in
`_extract_user_info`). -/
structure MEvent where
  pathId : Option String
  sub : String
  email : String
  groups : String
  sourceIp : String
  userAgent : String

/-- Observable side effects of one metadata-read invocation. -/
inductive MEffect
  | ddbGet (submissionId : String)
  | auditInvoke (eventType userId submissionId : String)
      (outcome : AuditOutcome)
  deriving Repr, DecidableEq

/-- Response bodies of the metadata handler, one constructor per `return`
site.  Both deny paths return the same 403 body, so they share
`errForbidden`. -/
inductive MBody
  | errMissingId
  | errIdentity
  | errInternal
  | errNotFound
  | errForbidden
  | record (fields : MItem)
  deriving Repr, DecidableEq

/-- An API-Gateway response of the metadata handler. -/
structure MResp where
  status : Nat
  body : MBody
  deriving Repr, DecidableEq

/-- An exception that escapes `lambda_handler` (which has no top-level
`try`): the invocation fails instead of producing a response. -/
inductive PyCrash
  | unhandled
  deriving Repr, DecidableEq

/-- `INTERNAL_FIELDS` stripped before returning a record. -/
def internalFields : List String := ["_version", "_ttl", "_internal_flags"]

/-- `lambda_handler` of get-submission-metadata: path-parameter check,
identity check, DynamoDB lookup, authorisation, best-effort audit invoke
(only `ClientError` is swallowed), then the sanitised record.  Returns the
response and effect trace, or the escaped exception. -/
def mHandler (ev : MEvent) (deps : MDeps) :
    Except PyCrash (MResp × List MEffect) :=
  let submissionId? :=
    match ev.pathId with
    | none => none
    | some s => if s = "" then none else some s
  match submissionId? with
  | none => .ok (⟨400, .errMissingId⟩, [])
  | some submissionId =>
    if ev.sub = "" then .ok (⟨403, .errIdentity⟩, [])
    else
      match deps.lookup with
      | .clientError => .ok (⟨500, .errInternal⟩, [.ddbGet submissionId])
      | .absent => .ok (⟨404, .errNotFound⟩, [.ddbGet submissionId])
      | .found item =>
        match accessDecision ev.groups ev.sub item with
        | .deny => .ok (⟨403, .errForbidden⟩, [.ddbGet submissionId])
        | _ =>
          match deps.audit with
          | .otherError => .error .unhandled
          | auditOutcome =>
            .ok (⟨200, .record
                  (item.filter fun kv => !internalFields.contains kv.1)⟩,
              [.ddbGet submissionId,
               .auditInvoke "ACCESS" ev.sub submissionId auditOutcome])

/-! ## Spec-side definitions

These follow the spec's words rather than the source, for the refinement
claims that compare the two. -/

/-- Is `c` a comma or whitespace (the separator set named by the spec's
group-membership parsing rule)? -/
def commaOrWs (c : Char) : Bool := c = ',' || chWs c

/-- Worker for `specTokens`: split on every comma or whitespace character,
discarding empty tokens. -/
def splitDelimAux (acc : List Char) : List Char → List (List Char)
  | [] => if acc = [] then [] else [acc.reverse]
  | c :: cs =>
    if commaOrWs c then
      if acc = [] then splitDelimAux [] cs
      else acc.reverse :: splitDelimAux [] cs
    else splitDelimAux (c :: acc) cs

/-- Spec-side group parsing: split the raw claim on both commas and
whitespace and trim each token. -/
def specTokens (groupsRaw : String) : List (List Char) :=
  (splitDelimAux [] groupsRaw.data).map chStrip

/-- Spec-side extension: the substring of the filename from its last `.`
onward, lower-cased, and the empty string when there is no `.` —
reconstructed from the right end of the string. -/
def specExt (filename : ByteL) : ByteL :=
  if 46 ∈ filename then
    lowerL (46 :: (filename.reverse.takeWhile fun c => c ≠ 46).reverse)
  else []

/-- Spec-side validation checks as independent functions, each returning
its rejection when its condition is violated (vacuously passing when the
data it inspects is absent, since an earlier check covers that case). -/
def checkMissingFile (parts : PartsDict) : Option VRes :=
  match dictGet (strB "file") parts with
  | none => some .missingFile
  | some fe => if fe.filename = none then some .missingFile else none

/-- Spec check 2: the first absent field among `student_id`, `course_id`,
`section_id`, in that order. -/
def checkMissingField (parts : PartsDict) : Option VRes :=
  if dictGet (strB "student_id") parts = none then
    some (.missingField (strB "student_id"))
  else if dictGet (strB "course_id") parts = none then
    some (.missingField (strB "course_id"))
  else if dictGet (strB "section_id") parts = none then
    some (.missingField (strB "section_id"))
  else none

/-- Spec check 3: some present identifier field is empty after UTF-8
decoding and trimming (passes vacuously when a field is absent or does not
decode). -/
def checkEmptyIdentifier (parts : PartsDict) : Option VRes :=
  match dictGet (strB "student_id") parts, dictGet (strB "course_id") parts,
      dictGet (strB "section_id") parts with
  | some se, some ce, some xe =>
    match utf8Decode se.value, utf8Decode ce.value, utf8Decode xe.value with
    | some sraw, some craw, some xraw =>
      if cpStrip sraw = [] || cpStrip craw = [] || cpStrip xraw = [] then
        some .emptyIdentifier
      else none
    | _, _, _ => none
  | _, _, _ => none

/-- Spec check 4: the file's extension is not in the allow-list. -/
def checkExtension (parts : PartsDict) : Option VRes :=
  match dictGet (strB "file") parts with
  | none => none
  | some fe =>
    match fe.filename with
    | none => none
    | some fname =>
      if !allowedExtensions.contains (getExtension fname) then
        some (.badExtension (getExtension fname))
      else none

/-- Spec check 5: the file content exceeds the configured ceiling. -/
def checkSize (parts : PartsDict) (maxFileSize : Nat) : Option VRes :=
  match dictGet (strB "file") parts with
  | none => none
  | some fe =>
    if fe.value.length > maxFileSize then
      some (.tooLarge fe.value.length maxFileSize)
    else none

/-- The spec's fixed check order. -/
def specChecks (parts : PartsDict) (maxFileSize : Nat) : List (Option VRes) :=
  [checkMissingFile parts, checkMissingField parts,
   checkEmptyIdentifier parts, checkExtension parts,
   checkSize parts maxFileSize]

/-- The first failing check of a list (the spec's short-circuit rule). -/
def firstFailing : List (Option VRes) → Option VRes
  | [] => none
  | none :: t => firstFailing t
  | some r :: _ => some r

/-- Spec-side description of one multipart parse: the (value, filename)
pair of the *last* segment of the body that parses to the given field name,
if any (the spec's last-write-wins rule). -/
def lastOccurrence (contentType bodyBytes k : ByteL) : Option PartEntry :=
  match extractBoundary contentType with
  | none => none
  | some boundary =>
    ((((splitOnSeq (strB "--" ++ boundary) bodyBytes).filterMap
        segmentEntry).filter fun p => p.1 = k).getLast?).map (·.2)

/-! ## Concrete fixtures (used only to instantiate theorems on inputs) -/

/-- A Content-Type header with boundary `b`. -/
def wCT : ByteL := strB "multipart/form-data; boundary=b"

/-- A well-formed multipart body: a 5-byte `a.py` file part and the three
identifier fields. -/
def wBody : ByteL :=
  strB "--b\r\nContent-Disposition: form-data; name=\"file\"; filename=\"a.py\"\r\n\r\nhello\r\n--b\r\nContent-Disposition: form-data; name=\"student_id\"\r\n\r\ns1\r\n--b\r\nContent-Disposition: form-data; name=\"course_id\"\r\n\r\nc1\r\n--b\r\nContent-Disposition: form-data; name=\"section_id\"\r\n\r\nx1\r\n--b--\r\n"

/-- The part mapping `wBody` parses to. -/
def wParts : PartsDict :=
  [(strB "file", ⟨strB "hello", some (strB "a.py")⟩),
   (strB "student_id", ⟨strB "s1", none⟩),
   (strB "course_id", ⟨strB "c1", none⟩),
   (strB "section_id", ⟨strB "x1", none⟩)]

/-- `wBody` with the `student_id` value replaced by the lone byte `0xFF`,
which is not valid UTF-8. -/
def wBodyBad : ByteL :=
  strB "--b\r\nContent-Disposition: form-data; name=\"file\"; filename=\"a.py\"\r\n\r\nhello\r\n--b\r\nContent-Disposition: form-data; name=\"student_id\"\r\n\r\n"
  ++ [255]
  ++ strB "\r\n--b\r\nContent-Disposition: form-data; name=\"course_id\"\r\n\r\nc1\r\n--b\r\nContent-Disposition: form-data; name=\"section_id\"\r\n\r\nx1\r\n--b--\r\n"

/-- The part mapping `wBodyBad` parses to. -/
def wPartsBad : PartsDict :=
  [(strB "file", ⟨strB "hello", some (strB "a.py")⟩),
   (strB "student_id", ⟨[255], none⟩),
   (strB "course_id", ⟨strB "c1", none⟩),
   (strB "section_id", ⟨strB "x1", none⟩)]

/-- A POST upload event carrying `wBody`. -/
def wEvent : IntakeEvent :=
  ⟨strB "POST", wCT, wBody, some (strB "alice"), some (strB "a@x")⟩

/-- A POST upload event carrying `wBodyBad`. -/
def wEventBad : IntakeEvent :=
  ⟨strB "POST", wCT, wBodyBad, some (strB "alice"), some (strB "a@x")⟩

/-- A multipart body in which field `x` occurs twice. -/
def wBodyDup : ByteL :=
  strB "--b\r\nContent-Disposition: form-data; name=\"x\"\r\n\r\nfirst\r\n--b\r\nContent-Disposition: form-data; name=\"x\"\r\n\r\nsecond\r\n--b--\r\n"

/-- A segment whose header block has no parseable `name` attribute. -/
def wSegNoName : ByteL :=
  strB "\r\nContent-Disposition: form-data\r\n\r\nvalue\r\n"

/-- An intake configuration with the given size ceiling. -/
def wCfg (m : Nat) : IntakeCfg := ⟨strB "bucket", m, strB "audit"⟩

/-- Intake collaborators that all succeed. -/
def wDeps : IntakeDeps :=
  ⟨true, true, true, strB "id-1", strB "ts", fun _ => strB "h"⟩

/-! ## Group parsing and access decision (claim C1) -/

/-- Replacing commas by spaces and then splitting on whitespace is the same
as splitting on the comma-or-whitespace separator set directly. -/
theorem pySplitWsAux_comma (l : List Char) :
    ∀ acc, pySplitWsAux acc (l.map fun c => if c = ',' then ' ' else c)
      = splitDelimAux acc l := by
  induction l with
  | nil => intro acc; rfl
  | cons c cs ih =>
    intro acc
    by_cases hc : c = ','
    · subst hc
      simp only [List.map_cons, if_pos rfl, pySplitWsAux, splitDelimAux,
        show chWs ' ' = true from by decide,
        show commaOrWs ',' = true from by decide, if_true]
      by_cases ha : acc = [] <;> simp [ha, ih]
    · have hcw : commaOrWs c = chWs c := by
        unfold commaOrWs
        rw [decide_eq_false hc, Bool.false_or]
      simp only [List.map_cons, if_neg hc, pySplitWsAux, splitDelimAux, hcw]
      by_cases hw : chWs c
      · simp only [hw, if_true]
        by_cases ha : acc = [] <;> simp [ha, ih]
      · simp [hw, ih]

/-- `_user_in_group` computes exactly membership in the spec's token list
(split on commas and whitespace, trim each token). -/
theorem userInGroup_spec (raw g : String) :
    userInGroup raw g = (specTokens raw).contains g.data := by
  by_cases h : raw = ""
  · subst h; rfl
  · unfold userInGroup specTokens pySplitWs
    rw [if_neg h, pySplitWsAux_comma]

/-- Claim C1: the metadata reader's access decision allows any caller in a
privileged group (Faculty or Admin) regardless of ownership; otherwise a
caller in the Students group is allowed exactly when the record's
`student_id` equals their subject id; otherwise the decision is deny.  Group
membership is computed from the raw groups claim by splitting on both commas
and whitespace and trimming each token. -/
theorem C1_access_decision :
    (∀ raw g : String, userInGroup raw g = (specTokens raw).contains g.data)
    ∧ (∀ (groups sub : String) (item : MItem),
        (userInGroup groups "Faculty" || userInGroup groups "Admin") = true →
        accessDecision groups sub item = .allowPriv)
    ∧ (∀ (groups sub : String) (item : MItem),
        (userInGroup groups "Faculty" || userInGroup groups "Admin") = false →
        userInGroup groups "Students" = true →
        accessDecision groups sub item =
          (if itemGet "student_id" item = some sub then .allowOwner
           else .deny))
    ∧ (∀ (groups sub : String) (item : MItem),
        (userInGroup groups "Faculty" || userInGroup groups "Admin") = false →
        userInGroup groups "Students" = false →
        accessDecision groups sub item = .deny) := by
  refine ⟨userInGroup_spec, ?_, ?_, ?_⟩
  · intro groups sub item h
    unfold accessDecision
    simp [h]
  · intro groups sub item hpriv hstu
    unfold accessDecision
    by_cases him : itemGet "student_id" item = some sub <;>
      simp [hpriv, hstu, him]
  · intro groups sub item hpriv hstu
    unfold accessDecision
    simp [hpriv, hstu]

/-- Concrete instantiation of `C1_access_decision`: a comma-separated
groups claim, a privileged caller on a foreign record, an owner student, a
non-owner student, and a caller with no recognized group. -/
theorem C1_witness :
    userInGroup "Faculty,Students" "Faculty"
      = (specTokens "Faculty,Students").contains "Faculty".data
    ∧ accessDecision "Faculty" "alice" [("student_id", "bob")]
      = .allowPriv
    ∧ accessDecision "Students" "alice" [("student_id", "alice")]
      = (if itemGet "student_id" [("student_id", "alice")] = some "alice"
         then Decision.allowOwner else .deny)
    ∧ accessDecision "Students" "alice" [("student_id", "bob")]
      = (if itemGet "student_id" [("student_id", "bob")] = some "alice"
         then Decision.allowOwner else .deny)
    ∧ accessDecision "Hackers" "alice" [("student_id", "alice")] = .deny :=
  ⟨C1_access_decision.1 "Faculty,Students" "Faculty",
   C1_access_decision.2.1 "Faculty" "alice" [("student_id", "bob")]
     (by decide),
   C1_access_decision.2.2.1 "Students" "alice" [("student_id", "alice")]
     (by decide) (by decide),
   C1_access_decision.2.2.1 "Students" "alice" [("student_id", "bob")]
     (by decide) (by decide),
   C1_access_decision.2.2.2 "Hackers" "alice" [("student_id", "alice")]
     (by decide) (by decide)⟩

/-! ## Metadata handler: identity check, deny vs not-found, audit policy -/

/-- Claim C7: a metadata-read request whose claims lack a subject id gets
the unidentified-caller 403 (when the path carries a submission id) with an
empty effect trace — the DynamoDB lookup never happens — and conversely any
trace containing a lookup came from a request with a nonempty subject. -/
theorem C7_identity_before_lookup :
    ∀ (ev : MEvent) (deps : MDeps),
      (ev.sub = "" →
        (∀ s, ev.pathId = some s → s ≠ "" →
          mHandler ev deps = .ok (⟨403, .errIdentity⟩, []))
        ∧ (∀ r fx, mHandler ev deps = .ok (r, fx) → fx = []))
      ∧ (∀ r fx s, mHandler ev deps = .ok (r, fx) →
          MEffect.ddbGet s ∈ fx → ev.sub ≠ "") := by
  intro ev deps
  have hempty : ev.sub = "" →
      (∀ s, ev.pathId = some s → s ≠ "" →
        mHandler ev deps = .ok (⟨403, .errIdentity⟩, []))
      ∧ (∀ r fx, mHandler ev deps = .ok (r, fx) → fx = []) := by
    intro hsub
    constructor
    · intro s hp hs
      simp [mHandler, hp, hs, hsub]
    · intro r fx h
      have hform : mHandler ev deps = .ok (⟨400, .errMissingId⟩, [])
          ∨ mHandler ev deps = .ok (⟨403, .errIdentity⟩, []) := by
        cases hp : ev.pathId with
        | none => left; simp [mHandler, hp]
        | some s =>
          by_cases hs : s = ""
          · left; simp [mHandler, hp, hs]
          · right; simp [mHandler, hp, hs, hsub]
      rcases hform with hf | hf <;>
        · rw [hf] at h
          injection h with h'
          injection h' with h1 h2
          exact h2.symm
  refine ⟨hempty, ?_⟩
  intro r fx s h hmem hsub
  rcases (hempty hsub).2 r fx h with rfl
  cases hmem

/-- Concrete instantiation of `C7_identity_before_lookup`: an anonymous
caller asking for an existing record gets 403 and no lookup occurs. -/
theorem C7_witness :
    mHandler ⟨some "sub-1", "", "", "Students", "ip", "ua"⟩
        ⟨.found [("student_id", "alice")], .ok⟩
      = .ok (⟨403, .errIdentity⟩, []) :=
  ((C7_identity_before_lookup
      ⟨some "sub-1", "", "", "Students", "ip", "ua"⟩
      ⟨.found [("student_id", "alice")], .ok⟩).1 rfl).1
    "sub-1" rfl (by decide)

/-- Counterexample to claim C6 as stated: for the same denied student
caller, a foreign record yields `403` with the not-authorised body while an
absent record yields `404` with the not-found body — the two responses are
distinguishable, revealing which case occurred. -/
theorem C6_counterexample :
    mHandler ⟨some "sub-1", "alice", "a@example.com", "Students", "ip", "ua"⟩
        ⟨.found [("student_id", "bob")], .ok⟩
      = .ok (⟨403, .errForbidden⟩, [.ddbGet "sub-1"])
    ∧ mHandler ⟨some "sub-1", "alice", "a@example.com", "Students", "ip", "ua"⟩
        ⟨.absent, .ok⟩
      = .ok (⟨404, .errNotFound⟩, [.ddbGet "sub-1"])
    ∧ (MResp.mk 403 .errForbidden) ≠ ⟨404, .errNotFound⟩ := by
  refine ⟨rfl, rfl, by decide⟩

/-- Claim C6 amended: the reader returns the 404 not-found response for a
missing record and the 403 not-authorised response on a deny decision; the
two outcomes are distinguishable to the caller (distinct status and body),
while the two deny reasons (wrong owner vs no recognized group) share one
indistinguishable response. -/
theorem C6_deny_vs_absent :
    ∀ (ev : MEvent) (deps : MDeps) (sid : String) (item : MItem),
      ev.pathId = some sid → sid ≠ "" → ev.sub ≠ "" →
      (deps.lookup = .absent →
        mHandler ev deps = .ok (⟨404, .errNotFound⟩, [.ddbGet sid]))
      ∧ (deps.lookup = .found item →
          accessDecision ev.groups ev.sub item = .deny →
          mHandler ev deps = .ok (⟨403, .errForbidden⟩, [.ddbGet sid]))
      ∧ (MResp.mk 404 .errNotFound) ≠ ⟨403, .errForbidden⟩ := by
  intro ev deps sid item hp hs hsub
  refine ⟨?_, ?_, by decide⟩
  · intro hlk
    simp [mHandler, hp, hs, hsub, hlk]
  · intro hlk hdec
    simp [mHandler, hp, hs, hsub, hlk, hdec]

/-- Concrete instantiation of `C6_deny_vs_absent`: a student denied on a
foreign record, and the same caller on an absent record. -/
theorem C6_witness :
    mHandler ⟨some "sub-1", "alice", "a@example.com", "Students", "ip", "ua"⟩
        ⟨.absent, .ok⟩
      = .ok (⟨404, .errNotFound⟩, [.ddbGet "sub-1"])
    ∧ mHandler ⟨some "sub-2", "alice", "a@example.com", "Students", "ip", "ua"⟩
        ⟨.found [("student_id", "bob")], .ok⟩
      = .ok (⟨403, .errForbidden⟩, [.ddbGet "sub-2"]) :=
  ⟨((C6_deny_vs_absent
      ⟨some "sub-1", "alice", "a@example.com", "Students", "ip", "ua"⟩
      ⟨.absent, .ok⟩ "sub-1" []) rfl (by decide) (by decide)).1 rfl,
   (((C6_deny_vs_absent
      ⟨some "sub-2", "alice", "a@example.com", "Students", "ip", "ua"⟩
      ⟨.found [("student_id", "bob")], .ok⟩ "sub-2" [("student_id", "bob")])
      rfl (by decide) (by decide)).2.1 rfl (by decide))⟩

/-- Counterexample to claim C5 as stated: in the metadata reader an audit
failure that is not a `ClientError` is not swallowed — the same allowed
request that returns 200 when the audit invoke succeeds instead escapes as
an unhandled exception, so the caller's outcome is not the same for every
possible audit failure. -/
theorem C5_counterexample :
    mHandler ⟨some "sub-1", "alice", "a@example.com", "Students", "ip", "ua"⟩
        ⟨.found [("student_id", "alice")], .ok⟩
      = .ok (⟨200, .record [("student_id", "alice")]⟩,
          [.ddbGet "sub-1", .auditInvoke "ACCESS" "alice" "sub-1" .ok])
    ∧ mHandler ⟨some "sub-1", "alice", "a@example.com", "Students", "ip", "ua"⟩
        ⟨.found [("student_id", "alice")], .otherError⟩
      = .error .unhandled
    ∧ (Except.error PyCrash.unhandled
        ≠ (.ok (⟨200, .record [("student_id", "alice")]⟩,
            [.ddbGet "sub-1", .auditInvoke "ACCESS" "alice" "sub-1" .ok])
          : Except PyCrash (MResp × List MEffect))) :=
  ⟨rfl, rfl, fun h => Except.noConfusion h⟩

/-- Claim C5 amended: the intake handler swallows every audit failure (the
response is independent of the audit outcome); the metadata reader swallows
an audit failure raised as `ClientError` (same response as success), but any
other audit failure propagates out of the handler as an unhandled
exception. -/
theorem C5_audit_best_effort :
    (∀ (cfg : IntakeCfg) (deps : IntakeDeps) (ev : IntakeEvent) (b b' : Bool),
      (intakeHandler cfg { deps with auditOk := b } ev).1
        = (intakeHandler cfg { deps with auditOk := b' } ev).1)
    ∧ (∀ (ev : MEvent) (lk : MLookup),
        (mHandler ev ⟨lk, .clientError⟩).map Prod.fst
          = (mHandler ev ⟨lk, .ok⟩).map Prod.fst)
    ∧ (∀ (ev : MEvent) (lk : MLookup) (r : MResp) (fx : List MEffect),
        mHandler ev ⟨lk, .ok⟩ = .ok (r, fx) → r.status = 200 →
        mHandler ev ⟨lk, .otherError⟩ = .error .unhandled) := by
  refine ⟨?_, ?_, ?_⟩
  · intro cfg deps ev b b'
    unfold intakeHandler
    dsimp only
    repeat' split
    all_goals rfl
  · intro ev lk
    unfold mHandler
    dsimp only
    repeat' split
    all_goals rfl
  · intro ev lk r fx h h200
    cases hp : ev.pathId with
    | none =>
      simp only [mHandler, hp, Except.ok.injEq, Prod.mk.injEq] at h
      rw [← h.1] at h200
      exact absurd h200 (by decide)
    | some s =>
      by_cases hs : s = ""
      · simp [mHandler, hp, hs] at h
        rw [← h.1] at h200
        exact absurd h200 (by decide)
      · by_cases hb : ev.sub = ""
        · simp [mHandler, hp, hs, hb] at h
          rw [← h.1] at h200
          exact absurd h200 (by decide)
        · cases lk with
          | clientError =>
            simp [mHandler, hp, hs, hb] at h
            rw [← h.1] at h200
            exact absurd h200 (by decide)
          | absent =>
            simp [mHandler, hp, hs, hb] at h
            rw [← h.1] at h200
            exact absurd h200 (by decide)
          | found item =>
            cases hdec : accessDecision ev.groups ev.sub item with
            | deny =>
              simp [mHandler, hp, hs, hb, hdec] at h
              rw [← h.1] at h200
              exact absurd h200 (by decide)
            | allowPriv =>
              simp [mHandler, hp, hs, hb, hdec]
            | allowOwner =>
              simp [mHandler, hp, hs, hb, hdec]

/-- Concrete instantiation of `C5_audit_best_effort`: an intake run with a
failed vs successful audit, a metadata read with a `ClientError` audit
failure, and the propagation case on a concrete allowed read. -/
theorem C5_witness :
    (intakeHandler ⟨strB "bucket", 100, strB "audit"⟩
        ⟨true, true, false, strB "id-1", strB "ts", fun _ => strB "h"⟩
        ⟨strB "OPTIONS", [], [], none, none⟩).1
      = (intakeHandler ⟨strB "bucket", 100, strB "audit"⟩
          ⟨true, true, true, strB "id-1", strB "ts", fun _ => strB "h"⟩
          ⟨strB "OPTIONS", [], [], none, none⟩).1
    ∧ (mHandler ⟨some "sub-1", "alice", "e", "Students", "ip", "ua"⟩
        ⟨.found [("student_id", "alice")], .clientError⟩).map Prod.fst
      = (mHandler ⟨some "sub-1", "alice", "e", "Students", "ip", "ua"⟩
          ⟨.found [("student_id", "alice")], .ok⟩).map Prod.fst
    ∧ mHandler ⟨some "sub-1", "alice", "e", "Students", "ip", "ua"⟩
        ⟨.found [("student_id", "alice")], .otherError⟩
      = .error .unhandled :=
  ⟨C5_audit_best_effort.1 ⟨strB "bucket", 100, strB "audit"⟩
      ⟨true, true, true, strB "id-1", strB "ts", fun _ => strB "h"⟩
      ⟨strB "OPTIONS", [], [], none, none⟩ false true,
   C5_audit_best_effort.2.1
      ⟨some "sub-1", "alice", "e", "Students", "ip", "ua"⟩
      (.found [("student_id", "alice")]),
   C5_audit_best_effort.2.2
      ⟨some "sub-1", "alice", "e", "Students", "ip", "ua"⟩
      (.found [("student_id", "alice")])
      ⟨200, .record [("student_id", "alice")]⟩
      [.ddbGet "sub-1", .auditInvoke "ACCESS" "alice" "sub-1" .ok]
      rfl rfl⟩

/-! ## Validator lemmas (claims C3, C8, C9) -/

/-- `validate` on a part mapping whose structural checks all resolve:
only the extension and size checks remain. -/
theorem validate_resolved (parts : PartsDict) (m : Nat) (fe se ce xe : PartEntry)
    (fname sraw craw xraw : ByteL)
    (hf : dictGet (strB "file") parts = some fe)
    (hfn : fe.filename = some fname)
    (hse : dictGet (strB "student_id") parts = some se)
    (hce : dictGet (strB "course_id") parts = some ce)
    (hxe : dictGet (strB "section_id") parts = some xe)
    (hsd : utf8Decode se.value = some sraw)
    (hcd : utf8Decode ce.value = some craw)
    (hxd : utf8Decode xe.value = some xraw)
    (hs : cpStrip sraw ≠ []) (hc : cpStrip craw ≠ []) (hx : cpStrip xraw ≠ []) :
    validate parts m =
      (if !allowedExtensions.contains (getExtension fname) then
        .badExtension (getExtension fname)
      else if fe.value.length > m then .tooLarge fe.value.length m
      else .ok fe.value fname (cpStrip sraw) (cpStrip craw) (cpStrip xraw)
        (getExtension fname)) := by
  unfold validate
  simp only [hf, hfn, hse, hce, hxe, hsd, hcd, hxd]
  simp [hs, hc, hx]

/-- Claim C8: on a payload that passes every earlier check, a byte length
strictly above the configured ceiling is rejected as too large, a length
exactly at the ceiling is accepted, and one byte over is rejected; a
too-large rejection is returned by the handler as status 413 with no
storage effects. -/
theorem C8_size_ceiling :
    (∀ (parts : PartsDict) (m : Nat) (fe se ce xe : PartEntry)
        (fname sraw craw xraw : ByteL),
      dictGet (strB "file") parts = some fe →
      fe.filename = some fname →
      dictGet (strB "student_id") parts = some se →
      dictGet (strB "course_id") parts = some ce →
      dictGet (strB "section_id") parts = some xe →
      utf8Decode se.value = some sraw →
      utf8Decode ce.value = some craw →
      utf8Decode xe.value = some xraw →
      cpStrip sraw ≠ [] → cpStrip craw ≠ [] → cpStrip xraw ≠ [] →
      allowedExtensions.contains (getExtension fname) = true →
      ((fe.value.length > m →
          validate parts m = .tooLarge fe.value.length m)
        ∧ (fe.value.length = m →
            validate parts m = .ok fe.value fname (cpStrip sraw)
              (cpStrip craw) (cpStrip xraw) (getExtension fname))
        ∧ (fe.value.length = m + 1 →
            validate parts m = .tooLarge (m + 1) m)))
    ∧ (∀ (cfg : IntakeCfg) (deps : IntakeDeps) (ev : IntakeEvent)
        (parts : PartsDict) (size limit : Nat),
       ev.httpMethod ≠ strB "OPTIONS" → ev.body ≠ [] →
       containsSeq ev.contentType (strB "multipart/form-data") = true →
       parseMultipart ev.contentType ev.body = .ok parts →
       validate parts cfg.maxFileSize = .tooLarge size limit →
       intakeHandler cfg deps ev = (⟨413, .errTooLarge size limit⟩, [])) := by
  constructor
  · intro parts m fe se ce xe fname sraw craw xraw hf hfn hse hce hxe hsd hcd
      hxd hs hc hx hext
    rw [validate_resolved parts m fe se ce xe fname sraw craw xraw hf hfn hse
      hce hxe hsd hcd hxd hs hc hx]
    have hext' : getExtension fname ∈ allowedExtensions := by simpa using hext
    refine ⟨?_, ?_, ?_⟩
    · intro hgt; simp [hext', hgt]
    · intro heq; simp [hext', heq]
    · intro heq; simp [hext', heq]
  · intro cfg deps ev parts size limit hm hb hct hparse hval
    unfold intakeHandler
    rw [if_neg hm, if_neg hb, hct]
    simp [hparse, hval]

/-- Concrete instantiation of `C8_size_ceiling`: the 5-byte file of
`wParts` is rejected against a 4-byte ceiling (one byte over), accepted
against a 5-byte ceiling (exactly at the ceiling), and the full handler
returns 413 with no storage effects on the over-limit upload. -/
theorem C8_witness :
    ((5 : Nat) > 4 ∧ validate wParts 4 = .tooLarge 5 4)
    ∧ validate wParts 5
        = .ok (strB "hello") (strB "a.py") (strB "s1") (strB "c1")
            (strB "x1") (strB ".py")
    ∧ intakeHandler (wCfg 4) wDeps wEvent = (⟨413, .errTooLarge 5 4⟩, []) :=
  ⟨⟨by decide,
    (C8_size_ceiling.1 wParts 4 ⟨strB "hello", some (strB "a.py")⟩
        ⟨strB "s1", none⟩ ⟨strB "c1", none⟩ ⟨strB "x1", none⟩
        (strB "a.py") (strB "s1") (strB "c1") (strB "x1")
        rfl rfl rfl rfl rfl rfl rfl rfl
        (by decide) (by decide) (by decide) rfl).1 (by decide)⟩,
   (C8_size_ceiling.1 wParts 5 ⟨strB "hello", some (strB "a.py")⟩
        ⟨strB "s1", none⟩ ⟨strB "c1", none⟩ ⟨strB "x1", none⟩
        (strB "a.py") (strB "s1") (strB "c1") (strB "x1")
        rfl rfl rfl rfl rfl rfl rfl rfl
        (by decide) (by decide) (by decide) rfl).2.1 rfl,
   C8_size_ceiling.2 (wCfg 4) wDeps wEvent wParts 5 4
     (by decide) (by decide) rfl rfl rfl⟩

/-! ## Extension extraction (claim C9) -/

/-- `takeWhile` over an append stops inside the left part when that part
contains an element refuting the predicate. -/
theorem takeWhile_append_stop {α : Type} (p : α → Bool) (l l' : List α)
    (x : α) (hx : x ∈ l) (hpx : p x = false) :
    (l ++ l').takeWhile p = l.takeWhile p := by
  induction l with
  | nil => cases hx
  | cons a as ih =>
    by_cases hpa : p a = true
    · have hax : x ∈ as := by
        rcases List.mem_cons.mp hx with h | h
        · subst h; rw [hpa] at hpx; cases hpx
        · exact h
      simp [List.takeWhile_cons, hpa, ih hax]
    · simp [List.takeWhile_cons, Bool.eq_false_iff.mpr hpa]

/-- Characterization of `takeFromLastDot`: the suffix starting at the last
dot, reconstructed from the right end, or `none` when there is no dot. -/
theorem takeFromLastDot_eq (fn : ByteL) :
    takeFromLastDot fn =
      if 46 ∈ fn then
        some (46 :: (fn.reverse.takeWhile fun c => c ≠ 46).reverse)
      else none := by
  induction fn with
  | nil => rfl
  | cons c cs ih =>
    unfold takeFromLastDot
    rw [ih]
    by_cases hcs : 46 ∈ cs
    · rw [if_pos hcs, if_pos (List.mem_cons_of_mem c hcs)]
      have hrev : (c :: cs).reverse = cs.reverse ++ [c] := by simp
      rw [hrev, takeWhile_append_stop _ _ _ 46 (List.mem_reverse.mpr hcs)
        (by simp)]
    · rw [if_neg hcs]
      by_cases hc : c = 46
      · subst hc
        rw [if_pos rfl, if_pos (List.mem_cons_self 46 cs)]
        have hrev : (46 :: cs).reverse = cs.reverse ++ [46] := by simp
        have hall : ∀ a ∈ cs.reverse, (fun c => decide (c ≠ 46)) a = true := by
          intro a ha
          have : a ∈ cs := List.mem_reverse.mp ha
          have hne : a ≠ 46 := fun h => hcs (h ▸ this)
          simp [hne]
        rw [hrev, List.takeWhile_append_of_pos hall]
        simp
      · have hmem : (46 : Nat) ∉ c :: cs := by
          intro h
          rcases List.mem_cons.mp h with h | h
          · exact hc h.symm
          · exact hcs h
        rw [if_neg hmem]
        exact if_neg hc

/-- Claim C9 part: the code's extension extraction agrees with the spec's
description (substring from the last dot, lower-cased, empty without a
dot). -/
theorem getExtension_spec (fn : ByteL) : getExtension fn = specExt fn := by
  unfold getExtension specExt
  rw [takeFromLastDot_eq]
  by_cases h : 46 ∈ fn
  · rw [if_pos h, if_pos h]
  · rw [if_neg h, if_neg h]

/-- Only the dot itself lower-cases to the dot. -/
theorem asciiLower_eq_dot {y : Nat} (h : asciiLower y = 46) : y = 46 := by
  by_cases hc : (65 ≤ y && y ≤ 90) = true
  · simp only [asciiLower, hc, if_true] at h
    simp only [Bool.and_eq_true, decide_eq_true_eq] at hc
    omega
  · simpa [asciiLower, hc] using h

/-- Lower-casing commutes with taking the suffix after the last dot. -/
theorem lowerL_lastDotSuffix (l : ByteL) :
    lowerL (46 :: (l.reverse.takeWhile fun c => c ≠ 46).reverse)
      = 46 :: ((lowerL l).reverse.takeWhile fun c => c ≠ 46).reverse := by
  unfold lowerL
  have hdot : asciiLower 46 = 46 := by decide
  have hmap : (List.map asciiLower l).reverse.takeWhile
        (fun c => decide (c ≠ 46))
      = List.map asciiLower (l.reverse.takeWhile fun c => decide (c ≠ 46)) := by
    rw [← List.map_reverse, List.takeWhile_map]
    have hpf : ((fun c : Nat => decide (c ≠ 46)) ∘ asciiLower)
        = (fun c : Nat => decide (c ≠ 46)) := by
      funext a
      simp only [Function.comp_apply, decide_eq_decide]
      constructor
      · intro ha hcontra
        exact ha (by rw [hcontra]; exact hdot)
      · intro ha hcontra
        exact ha (asciiLower_eq_dot hcontra)
    rw [hpf]
  simp only [List.map_cons, hdot, hmap, List.map_reverse]

/-- Case-insensitivity of extension extraction: filenames equal up to ASCII
case yield the same (already lower-cased) extension. -/
theorem getExtension_lower_invariant (fn₁ fn₂ : ByteL)
    (h : lowerL fn₁ = lowerL fn₂) : getExtension fn₁ = getExtension fn₂ := by
  have hmem : (46 ∈ fn₁) ↔ (46 ∈ fn₂) := by
    have hstep : ∀ m : ByteL, 46 ∈ m ↔ 46 ∈ lowerL m := by
      intro m
      constructor
      · intro hm
        have h46 : asciiLower 46 = 46 := by decide
        have hmm := List.mem_map_of_mem asciiLower hm
        rw [h46] at hmm
        exact hmm
      · intro hm
        rcases List.mem_map.mp hm with ⟨y, hy, hfy⟩
        exact asciiLower_eq_dot hfy ▸ hy
    rw [hstep fn₁, hstep fn₂, h]
  rw [getExtension_spec, getExtension_spec]
  unfold specExt
  by_cases h1 : 46 ∈ fn₁
  · rw [if_pos h1, if_pos (hmem.mp h1), lowerL_lastDotSuffix,
      lowerL_lastDotSuffix, h]
  · rw [if_neg h1, if_neg (fun hx => h1 (hmem.mpr hx))]

/-- Claim C9: the extracted extension is the lower-cased substring from the
last dot (empty when there is no dot); extraction is invariant under ASCII
case of the filename; validation (after the earlier checks pass) rejects
with the disallowed-extension outcome exactly when the extension is outside
the allow-list, and accepts any allow-listed extension in any letter-case. -/
theorem C9_extension_allowlist :
    (∀ fn, getExtension fn = specExt fn)
    ∧ (∀ fn₁ fn₂, lowerL fn₁ = lowerL fn₂ →
        getExtension fn₁ = getExtension fn₂)
    ∧ (∀ (parts : PartsDict) (m : Nat) (fe se ce xe : PartEntry)
        (fname sraw craw xraw : ByteL),
      dictGet (strB "file") parts = some fe →
      fe.filename = some fname →
      dictGet (strB "student_id") parts = some se →
      dictGet (strB "course_id") parts = some ce →
      dictGet (strB "section_id") parts = some xe →
      utf8Decode se.value = some sraw →
      utf8Decode ce.value = some craw →
      utf8Decode xe.value = some xraw →
      cpStrip sraw ≠ [] → cpStrip craw ≠ [] → cpStrip xraw ≠ [] →
      ((allowedExtensions.contains (getExtension fname) = false →
          validate parts m = .badExtension (getExtension fname))
        ∧ (allowedExtensions.contains (getExtension fname) = true →
           ¬ fe.value.length > m →
            validate parts m = .ok fe.value fname (cpStrip sraw)
              (cpStrip craw) (cpStrip xraw) (getExtension fname)))) := by
  refine ⟨getExtension_spec, getExtension_lower_invariant, ?_⟩
  intro parts m fe se ce xe fname sraw craw xraw hf hfn hse hce hxe hsd hcd
    hxd hs hc hx
  rw [validate_resolved parts m fe se ce xe fname sraw craw xraw hf hfn hse
    hce hxe hsd hcd hxd hs hc hx]
  constructor
  · intro hext
    have hext' : getExtension fname ∉ allowedExtensions := by
      simpa using hext
    simp [hext']
  · intro hext hsize
    have hext' : getExtension fname ∈ allowedExtensions := by
      simpa using hext
    simp [hext', hsize]

/-- Concrete instantiation of `C9_extension_allowlist`: extension of a
mixed-case filename, case-invariance between `a.PY` and `a.py`, rejection of
`mal.exe`, and acceptance of the upper-case `A.PY`. -/
theorem C9_witness :
    getExtension (strB "report.FINAL.PdF") = specExt (strB "report.FINAL.PdF")
    ∧ (lowerL (strB "a.PY") = lowerL (strB "a.py")
        ∧ getExtension (strB "a.PY") = getExtension (strB "a.py"))
    ∧ validate
        [(strB "file", ⟨strB "hello", some (strB "mal.exe")⟩),
         (strB "student_id", ⟨strB "s1", none⟩),
         (strB "course_id", ⟨strB "c1", none⟩),
         (strB "section_id", ⟨strB "x1", none⟩)] 100
      = .badExtension (strB ".exe")
    ∧ validate
        [(strB "file", ⟨strB "hello", some (strB "A.PY")⟩),
         (strB "student_id", ⟨strB "s1", none⟩),
         (strB "course_id", ⟨strB "c1", none⟩),
         (strB "section_id", ⟨strB "x1", none⟩)] 100
      = .ok (strB "hello") (strB "A.PY") (strB "s1") (strB "c1")
          (strB "x1") (strB ".py") :=
  ⟨C9_extension_allowlist.1 (strB "report.FINAL.PdF"),
   ⟨by decide, C9_extension_allowlist.2.1 (strB "a.PY") (strB "a.py")
      (by decide)⟩,
   (C9_extension_allowlist.2.2
      [(strB "file", ⟨strB "hello", some (strB "mal.exe")⟩),
       (strB "student_id", ⟨strB "s1", none⟩),
       (strB "course_id", ⟨strB "c1", none⟩),
       (strB "section_id", ⟨strB "x1", none⟩)] 100
      ⟨strB "hello", some (strB "mal.exe")⟩ ⟨strB "s1", none⟩
      ⟨strB "c1", none⟩ ⟨strB "x1", none⟩
      (strB "mal.exe") (strB "s1") (strB "c1") (strB "x1")
      rfl rfl rfl rfl rfl rfl rfl rfl
      (by decide) (by decide) (by decide)).1 rfl,
   (C9_extension_allowlist.2.2
      [(strB "file", ⟨strB "hello", some (strB "A.PY")⟩),
       (strB "student_id", ⟨strB "s1", none⟩),
       (strB "course_id", ⟨strB "c1", none⟩),
       (strB "section_id", ⟨strB "x1", none⟩)] 100
      ⟨strB "hello", some (strB "A.PY")⟩ ⟨strB "s1", none⟩
      ⟨strB "c1", none⟩ ⟨strB "x1", none⟩
      (strB "A.PY") (strB "s1") (strB "c1") (strB "x1")
      rfl rfl rfl rfl rfl rfl rfl rfl
      (by decide) (by decide) (by decide)).2 rfl (by decide)⟩

/-! ## Check ordering (claim C3) -/

/-- Claim C3: on a decoded part mapping (whose present identifier fields
decode as UTF-8), the validator returns exactly the first failing check of
the spec's fixed order (missing file, missing field in the order student_id,
course_id, section_id, empty identifier, disallowed extension, file too
large), succeeding when no check fails; in particular, for every combination
of missing required fields the reported field is the first missing one in
that order. -/
theorem C3_check_order :
    ∀ (parts : PartsDict) (m : Nat),
      (∀ se ce xe : PartEntry,
        dictGet (strB "student_id") parts = some se →
        dictGet (strB "course_id") parts = some ce →
        dictGet (strB "section_id") parts = some xe →
        (utf8Decode se.value).isSome ∧ (utf8Decode ce.value).isSome
          ∧ (utf8Decode xe.value).isSome) →
      ((∀ r, firstFailing (specChecks parts m) = some r →
          validate parts m = r)
        ∧ (firstFailing (specChecks parts m) = none →
            ∃ fb fn s c x e, validate parts m = .ok fb fn s c x e)
        ∧ (checkMissingFile parts = none →
            (dictGet (strB "student_id") parts = none →
              validate parts m = .missingField (strB "student_id"))
            ∧ (dictGet (strB "student_id") parts ≠ none →
               dictGet (strB "course_id") parts = none →
              validate parts m = .missingField (strB "course_id"))
            ∧ (dictGet (strB "student_id") parts ≠ none →
               dictGet (strB "course_id") parts ≠ none →
               dictGet (strB "section_id") parts = none →
              validate parts m = .missingField (strB "section_id")))) := by
  intro parts m H
  cases hf : dictGet (strB "file") parts with
  | none =>
    have hcmf : checkMissingFile parts = some .missingFile := by
      unfold checkMissingFile; rw [hf]
    have hval : validate parts m = .missingFile := by
      unfold validate; rw [hf]
    refine ⟨?_, ?_, ?_⟩
    · intro r hr
      simp only [specChecks, hcmf, firstFailing, Option.some.injEq] at hr
      rw [hval, hr]
    · intro hr
      simp only [specChecks, hcmf, firstFailing] at hr
      cases hr
    · intro hnone
      rw [hcmf] at hnone
      cases hnone
  | some fe =>
    cases hfn : fe.filename with
    | none =>
      have hcmf : checkMissingFile parts = some .missingFile := by
        unfold checkMissingFile
        simp [hf, hfn]
      have hval : validate parts m = .missingFile := by
        unfold validate
        simp only [hf, hfn]
      refine ⟨?_, ?_, ?_⟩
      · intro r hr
        simp only [specChecks, hcmf, firstFailing, Option.some.injEq] at hr
        rw [hval, hr]
      · intro hr
        simp only [specChecks, hcmf, firstFailing] at hr
        cases hr
      · intro hnone
        rw [hcmf] at hnone
        cases hnone
    | some fname =>
      have hcmf : checkMissingFile parts = none := by
        unfold checkMissingFile
        simp [hf, hfn]
      cases hse : dictGet (strB "student_id") parts with
      | none =>
        have hcms : checkMissingField parts
            = some (.missingField (strB "student_id")) := by
          unfold checkMissingField
          simp [hse]
        have hval : validate parts m = .missingField (strB "student_id") := by
          unfold validate
          simp only [hf, hfn, hse]
        refine ⟨?_, ?_, ?_⟩
        · intro r hr
          simp only [specChecks, hcmf, hcms, firstFailing,
            Option.some.injEq] at hr
          rw [hval, hr]
        · intro hr
          simp only [specChecks, hcmf, hcms, firstFailing] at hr
          cases hr
        · intro _
          exact ⟨fun _ => hval, fun hne _ => absurd rfl hne,
            fun hne _ _ => absurd rfl hne⟩
      | some se =>
        cases hce : dictGet (strB "course_id") parts with
        | none =>
          have hcms : checkMissingField parts
              = some (.missingField (strB "course_id")) := by
            unfold checkMissingField
            simp [hse, hce]
          have hval : validate parts m = .missingField (strB "course_id") := by
            unfold validate
            simp only [hf, hfn, hse, hce]
          refine ⟨?_, ?_, ?_⟩
          · intro r hr
            simp only [specChecks, hcmf, hcms, firstFailing,
              Option.some.injEq] at hr
            rw [hval, hr]
          · intro hr
            simp only [specChecks, hcmf, hcms, firstFailing] at hr
            cases hr
          · intro _
            exact ⟨fun habs => Option.noConfusion habs, fun _ _ => hval,
              fun _ hne _ => absurd rfl hne⟩
        | some ce =>
          cases hxe : dictGet (strB "section_id") parts with
          | none =>
            have hcms : checkMissingField parts
                = some (.missingField (strB "section_id")) := by
              unfold checkMissingField
              simp [hse, hce, hxe]
            have hval : validate parts m
                = .missingField (strB "section_id") := by
              unfold validate
              simp only [hf, hfn, hse, hce, hxe]
            refine ⟨?_, ?_, ?_⟩
            · intro r hr
              simp only [specChecks, hcmf, hcms, firstFailing,
                Option.some.injEq] at hr
              rw [hval, hr]
            · intro hr
              simp only [specChecks, hcmf, hcms, firstFailing] at hr
              cases hr
            · intro _
              exact ⟨fun habs => Option.noConfusion habs,
                fun _ habs => Option.noConfusion habs,
                fun _ _ _ => hval⟩
          | some xe =>
            have hcms : checkMissingField parts = none := by
              unfold checkMissingField
              simp [hse, hce, hxe]
            rcases H se ce xe hse hce hxe with ⟨hsd', hcd', hxd'⟩
            rcases Option.isSome_iff_exists.mp hsd' with ⟨sraw, hsd⟩
            rcases Option.isSome_iff_exists.mp hcd' with ⟨craw, hcd⟩
            rcases Option.isSome_iff_exists.mp hxd' with ⟨xraw, hxd⟩
            have hmf3 : (some se = none →
                  validate parts m = VRes.missingField (strB "student_id"))
                ∧ (some se ≠ none → some ce = none →
                  validate parts m = VRes.missingField (strB "course_id"))
                ∧ (some se ≠ none → some ce ≠ none → some xe = none →
                  validate parts m = VRes.missingField (strB "section_id")) :=
              ⟨fun habs => Option.noConfusion habs,
               fun _ habs => Option.noConfusion habs,
               fun _ _ habs => Option.noConfusion habs⟩
            have hcee : checkEmptyIdentifier parts =
                (if cpStrip sraw = [] || cpStrip craw = [] ||
                    cpStrip xraw = [] then
                  some .emptyIdentifier
                else none) := by
              unfold checkEmptyIdentifier
              simp only [hse, hce, hxe, hsd, hcd, hxd]
            have hcex : checkExtension parts =
                (if !allowedExtensions.contains (getExtension fname) then
                  some (.badExtension (getExtension fname))
                else none) := by
              unfold checkExtension
              simp only [hf, hfn]
            have hcsz : checkSize parts m =
                (if fe.value.length > m then
                  some (.tooLarge fe.value.length m)
                else none) := by
              unfold checkSize
              simp only [hf]
            have hval0 : validate parts m =
                (if cpStrip sraw = [] || cpStrip craw = [] ||
                    cpStrip xraw = [] then
                  .emptyIdentifier
                else if !allowedExtensions.contains (getExtension fname) then
                  .badExtension (getExtension fname)
                else if fe.value.length > m then
                  .tooLarge fe.value.length m
                else .ok fe.value fname (cpStrip sraw) (cpStrip craw)
                  (cpStrip xraw) (getExtension fname)) := by
              unfold validate
              simp only [hf, hfn, hse, hce, hxe, hsd, hcd, hxd]
            by_cases hempty : (cpStrip sraw = [] || cpStrip craw = [] ||
                cpStrip xraw = []) = true
            · refine ⟨?_, ?_, fun _ => hmf3⟩
              · intro r hr
                simp only [specChecks, hcmf, hcms, hcee, hcex, hcsz,
                  if_pos hempty, firstFailing, Option.some.injEq] at hr
                rw [hval0, if_pos hempty, hr]
              · intro hr
                simp only [specChecks, hcmf, hcms, hcee, hcex, hcsz,
                  if_pos hempty, firstFailing] at hr
                cases hr
            · by_cases hext : (!allowedExtensions.contains
                  (getExtension fname)) = true
              · refine ⟨?_, ?_, fun _ => hmf3⟩
                · intro r hr
                  simp only [specChecks, hcmf, hcms, hcee, hcex, hcsz,
                    if_neg hempty, if_pos hext, firstFailing,
                    Option.some.injEq] at hr
                  rw [hval0, if_neg hempty, if_pos hext, hr]
                · intro hr
                  simp only [specChecks, hcmf, hcms, hcee, hcex, hcsz,
                    if_neg hempty, if_pos hext, firstFailing] at hr
                  cases hr
              · by_cases hsz : fe.value.length > m
                · refine ⟨?_, ?_, fun _ => hmf3⟩
                  · intro r hr
                    simp only [specChecks, hcmf, hcms, hcee, hcex, hcsz,
                      if_neg hempty, if_neg hext, if_pos hsz, firstFailing,
                      Option.some.injEq] at hr
                    rw [hval0, if_neg hempty, if_neg hext, if_pos hsz, hr]
                  · intro hr
                    simp only [specChecks, hcmf, hcms, hcee, hcex, hcsz,
                      if_neg hempty, if_neg hext, if_pos hsz,
                      firstFailing] at hr
                    cases hr
                · refine ⟨?_, ?_, fun _ => hmf3⟩
                  · intro r hr
                    simp only [specChecks, hcmf, hcms, hcee, hcex, hcsz,
                      if_neg hempty, if_neg hext, if_neg hsz,
                      firstFailing] at hr
                    exact Option.noConfusion hr
                  · intro _
                    refine ⟨fe.value, fname, cpStrip sraw, cpStrip craw,
                      cpStrip xraw, getExtension fname, ?_⟩
                    rw [hval0, if_neg hempty, if_neg hext, if_neg hsz]

/-- Concrete instantiation of `C3_check_order`: on a mapping missing both
`course_id` and `section_id` the first missing field (`course_id`) is
reported, and on the fully valid `wParts` no spec check fails and validation
succeeds. -/
theorem C3_witness :
    validate
        [(strB "file", ⟨strB "hello", some (strB "a.py")⟩),
         (strB "student_id", ⟨strB "s1", none⟩)] 100
      = .missingField (strB "course_id")
    ∧ firstFailing (specChecks wParts 100) = none
    ∧ (∃ fb fn s c x e, validate wParts 100 = .ok fb fn s c x e) :=
  ⟨((C3_check_order
      [(strB "file", ⟨strB "hello", some (strB "a.py")⟩),
       (strB "student_id", ⟨strB "s1", none⟩)] 100
      (by
        intro se ce xe hse hce hxe
        exact Option.noConfusion
          (show (none : Option PartEntry) = some ce from hce))).2.2 rfl).2.1
      (by decide) rfl,
   rfl,
   (C3_check_order wParts 100
      (by
        intro se ce xe hse hce hxe
        rw [show dictGet (strB "student_id") wParts
            = some (⟨strB "s1", none⟩ : PartEntry) from rfl] at hse
        rw [show dictGet (strB "course_id") wParts
            = some (⟨strB "c1", none⟩ : PartEntry) from rfl] at hce
        rw [show dictGet (strB "section_id") wParts
            = some (⟨strB "x1", none⟩ : PartEntry) from rfl] at hxe
        cases Option.some.inj hse
        cases Option.some.inj hce
        cases Option.some.inj hxe
        exact ⟨by decide, by decide, by decide⟩)).2.1 rfl⟩

/-! ## Intake orchestration (claims C2, C10) -/

/-- Every effect trace of the intake handler has one of four shapes: no
attempt, a lone S3 attempt that failed (response 500), S3 then a DynamoDB
attempt that failed (response 500), or S3 then DynamoDB then possibly the
audit invoke with a 200 response — so a DynamoDB attempt is always preceded
by an S3 attempt. -/
theorem intakeHandler_trace_char (cfg : IntakeCfg) (deps : IntakeDeps)
    (ev : IntakeEvent) :
    ∀ (r : IResp) (fx : List IEffect), intakeHandler cfg deps ev = (r, fx) →
      fx = []
      ∨ (∃ key, fx = [.s3Put key] ∧ r = ⟨500, .errS3⟩ ∧ deps.s3Ok = false)
      ∨ (∃ key sid, fx = [.s3Put key, .ddbPut deps.submissionId sid]
          ∧ r = ⟨500, .errDdb⟩ ∧ deps.s3Ok = true ∧ deps.ddbOk = false)
      ∨ (∃ key sid, (fx = [.s3Put key, .ddbPut deps.submissionId sid,
            .auditInvoke (strB "UPLOAD") deps.auditOk]
          ∨ fx = [.s3Put key, .ddbPut deps.submissionId sid])
          ∧ r.status = 200 ∧ deps.s3Ok = true ∧ deps.ddbOk = true) := by
  intro r fx h
  unfold intakeHandler at h
  split at h
  · injection h with h1 h2; subst h1; subst h2; exact Or.inl rfl
  split at h
  · injection h with h1 h2; subst h1; subst h2; exact Or.inl rfl
  split at h
  · injection h with h1 h2; subst h1; subst h2; exact Or.inl rfl
  split at h
  · injection h with h1 h2; subst h1; subst h2; exact Or.inl rfl
  split at h
  · injection h with h1 h2; subst h1; subst h2; exact Or.inl rfl
  · injection h with h1 h2; subst h1; subst h2; exact Or.inl rfl
  · injection h with h1 h2; subst h1; subst h2; exact Or.inl rfl
  · injection h with h1 h2; subst h1; subst h2; exact Or.inl rfl
  · injection h with h1 h2; subst h1; subst h2; exact Or.inl rfl
  · injection h with h1 h2; subst h1; subst h2; exact Or.inl rfl
  · split at h
    · rename_i hs3
      injection h with h1 h2; subst h1; subst h2
      exact Or.inr (Or.inl ⟨_, rfl, rfl, by simpa using hs3⟩)
    · rename_i hs3f
      split at h
      · rename_i hddb
        injection h with h1 h2; subst h1; subst h2
        exact Or.inr (Or.inr (Or.inl ⟨_, _, rfl, rfl,
          by simpa using hs3f, by simpa using hddb⟩))
      · rename_i hddbf
        split at h
        · injection h with h1 h2; subst h1; subst h2
          exact Or.inr (Or.inr (Or.inr ⟨_, _, Or.inl rfl, rfl,
            by simpa using hs3f, by simpa using hddbf⟩))
        · injection h with h1 h2; subst h1; subst h2
          exact Or.inr (Or.inr (Or.inr ⟨_, _, Or.inr rfl, rfl,
            by simpa using hs3f, by simpa using hddbf⟩))

/-- Claim C2: decode and validation failures return 400/413 with an empty
effect trace (no blob-store or metadata-store attempt); any trace has one of
the shapes in which every DynamoDB attempt is preceded by the S3 attempt;
and when the S3 write fails no DynamoDB attempt occurs and, if the S3
attempt was made, the response is the 500 blob-store error. -/
theorem C2_failure_policy :
    ∀ (cfg : IntakeCfg) (deps : IntakeDeps) (ev : IntakeEvent)
      (r : IResp) (fx : List IEffect),
      intakeHandler cfg deps ev = (r, fx) →
      ((∀ e, parseMultipart ev.contentType ev.body = .error e →
          ev.httpMethod ≠ strB "OPTIONS" → ev.body ≠ [] →
          containsSeq ev.contentType (strB "multipart/form-data") = true →
          r = ⟨400, .errMalformed e⟩ ∧ fx = [])
        ∧ (∀ parts, parseMultipart ev.contentType ev.body = .ok parts →
            ev.httpMethod ≠ strB "OPTIONS" → ev.body ≠ [] →
            containsSeq ev.contentType (strB "multipart/form-data") = true →
            ((validate parts cfg.maxFileSize = .missingFile →
                r = ⟨400, .errMissingFile⟩ ∧ fx = [])
              ∧ (∀ f, validate parts cfg.maxFileSize = .missingField f →
                  r = ⟨400, .errMissingField f⟩ ∧ fx = [])
              ∧ (validate parts cfg.maxFileSize = .emptyIdentifier →
                  r = ⟨400, .errEmptyIdentifiers⟩ ∧ fx = [])
              ∧ (∀ x, validate parts cfg.maxFileSize = .badExtension x →
                  r = ⟨400, .errInvalidType x⟩ ∧ fx = [])
              ∧ (∀ s l, validate parts cfg.maxFileSize = .tooLarge s l →
                  r = ⟨413, .errTooLarge s l⟩ ∧ fx = [])))
        ∧ ((r.status = 400 ∨ r.status = 413) → fx = [])
        ∧ (fx = []
            ∨ (∃ key, fx = [.s3Put key] ∧ r = ⟨500, .errS3⟩
                ∧ deps.s3Ok = false)
            ∨ (∃ key sid, fx = [.s3Put key, .ddbPut deps.submissionId sid]
                ∧ r = ⟨500, .errDdb⟩ ∧ deps.s3Ok = true ∧ deps.ddbOk = false)
            ∨ (∃ key sid, (fx = [.s3Put key, .ddbPut deps.submissionId sid,
                  .auditInvoke (strB "UPLOAD") deps.auditOk]
                ∨ fx = [.s3Put key, .ddbPut deps.submissionId sid])
                ∧ r.status = 200 ∧ deps.s3Ok = true ∧ deps.ddbOk = true))
        ∧ (deps.s3Ok = false →
            (∀ i s, IEffect.ddbPut i s ∉ fx)
            ∧ ((∃ key, IEffect.s3Put key ∈ fx) → r = ⟨500, .errS3⟩))) := by
  intro cfg deps ev r fx h
  have hchar := intakeHandler_trace_char cfg deps ev r fx h
  refine ⟨?_, ?_, ?_, hchar, ?_⟩
  · intro e hparse hm hb hct
    have hrun : intakeHandler cfg deps ev = (⟨400, .errMalformed e⟩, []) := by
      unfold intakeHandler
      rw [if_neg hm, if_neg hb, hct]
      simp [hparse]
    rw [h] at hrun
    injection hrun with h1 h2
    exact ⟨h1, h2⟩
  · intro parts hparse hm hb hct
    have hrun : ∀ (r' : IResp), (match validate parts cfg.maxFileSize with
          | .missingFile => some (IResp.mk 400 .errMissingFile)
          | .missingField f => some ⟨400, .errMissingField f⟩
          | .unicodeError => some ⟨500, .errInternal⟩
          | .emptyIdentifier => some ⟨400, .errEmptyIdentifiers⟩
          | .badExtension x => some ⟨400, .errInvalidType x⟩
          | .tooLarge s l => some ⟨413, .errTooLarge s l⟩
          | .ok _ _ _ _ _ _ => none) = some r' →
        r = r' ∧ fx = [] := by
      intro r' hv
      have hrun' : intakeHandler cfg deps ev = (r', []) := by
        unfold intakeHandler
        rw [if_neg hm, if_neg hb, hct]
        cases hval : validate parts cfg.maxFileSize <;>
          rw [hval] at hv <;> simp only [Option.some.injEq] at hv <;>
          first
          | (subst hv; simp [hparse, hval])
          | cases hv
      rw [h] at hrun'
      injection hrun' with h1 h2
      exact ⟨h1, h2⟩
    refine ⟨?_, ?_, ?_, ?_, ?_⟩
    · intro hval; exact hrun _ (by rw [hval])
    · intro f hval; exact hrun _ (by rw [hval])
    · intro hval; exact hrun _ (by rw [hval])
    · intro x hval; exact hrun _ (by rw [hval])
    · intro s l hval; exact hrun _ (by rw [hval])
  · intro hst
    rcases hchar with hfx | ⟨key, hfx, hr, _⟩ |
        ⟨key, sid, hfx, hr, _, _⟩ | ⟨key, sid, hfx, hr, _, _⟩
    · exact hfx
    · subst hr; rcases hst with hst | hst <;> exact absurd hst (by decide)
    · subst hr; rcases hst with hst | hst <;> exact absurd hst (by decide)
    · rw [hr] at hst; rcases hst with hst | hst <;>
        exact absurd hst (by decide)
  · intro hs3
    rcases hchar with hfx | ⟨key, hfx, hr, _⟩ |
        ⟨key, sid, hfx, hr, hs3', _⟩ | ⟨key, sid, hfx, hr, hs3', _⟩
    · subst hfx
      exact ⟨fun _ _ hmem => absurd hmem (List.not_mem_nil _),
        fun ⟨k, hmem⟩ => absurd hmem (List.not_mem_nil _)⟩
    · subst hfx
      constructor
      · intro i s hmem
        rcases List.mem_singleton.mp hmem with hmem
        cases hmem
      · intro _; exact hr
    · rw [hs3] at hs3'; cases hs3'
    · rw [hs3] at hs3'; cases hs3'

/-- Concrete instantiation of `C2_failure_policy`: with a failing blob
store the upload of `wBody` returns the 500 blob-store error and no
DynamoDB attempt appears in the trace, and an oversized upload returns 413
with no storage attempt at all. -/
theorem C2_witness :
    ((intakeHandler (wCfg 100) { wDeps with s3Ok := false } wEvent).1
        = ⟨500, .errS3⟩
      ∧ (∀ i s, IEffect.ddbPut i s ∉
          (intakeHandler (wCfg 100) { wDeps with s3Ok := false } wEvent).2))
    ∧ ((intakeHandler (wCfg 4) wDeps wEvent).1.status = 400
          ∨ (intakeHandler (wCfg 4) wDeps wEvent).1.status = 413)
      ∧ (intakeHandler (wCfg 4) wDeps wEvent).2 = [] := by
  have T1 := C2_failure_policy (wCfg 100) { wDeps with s3Ok := false } wEvent
    ⟨500, .errS3⟩ [.s3Put (strB "submissions/s1/id-1/a.py")] rfl
  have P5 := T1.2.2.2.2 rfl
  have T2 := C2_failure_policy (wCfg 4) wDeps wEvent
    ⟨413, .errTooLarge 5 4⟩ [] rfl
  exact ⟨⟨P5.2 ⟨strB "submissions/s1/id-1/a.py", List.mem_singleton.mpr rfl⟩,
      P5.1⟩,
    Or.inr rfl, T2.2.2.1 (Or.inr rfl)⟩

/-- Claim C10: when one of the three identifier parts does not decode as
UTF-8, the intake handler returns the generic 500 internal-error response
(the `UnicodeDecodeError` is caught only by the top-level handler, not as a
400 client rejection) and neither storage write is attempted. -/
theorem C10_invalid_utf8 :
    ∀ (cfg : IntakeCfg) (deps : IntakeDeps) (ev : IntakeEvent)
      (parts : PartsDict) (fe se ce xe : PartEntry) (fname : ByteL),
      ev.httpMethod ≠ strB "OPTIONS" → ev.body ≠ [] →
      containsSeq ev.contentType (strB "multipart/form-data") = true →
      parseMultipart ev.contentType ev.body = .ok parts →
      dictGet (strB "file") parts = some fe →
      fe.filename = some fname →
      dictGet (strB "student_id") parts = some se →
      dictGet (strB "course_id") parts = some ce →
      dictGet (strB "section_id") parts = some xe →
      (utf8Decode se.value = none ∨ utf8Decode ce.value = none ∨
        utf8Decode xe.value = none) →
      intakeHandler cfg deps ev = (⟨500, .errInternal⟩, []) := by
  intro cfg deps ev parts fe se ce xe fname hm hb hct hparse hf hfn hse hce
    hxe hbad
  have hval : validate parts cfg.maxFileSize = .unicodeError := by
    unfold validate
    simp only [hf, hfn, hse, hce, hxe]
    rcases hbad with hb1 | hb2 | hb3
    · simp [hb1]
    · cases hsd : utf8Decode se.value with
      | none => simp [hsd]
      | some sraw => simp [hsd, hb2]
    · cases hsd : utf8Decode se.value with
      | none => simp [hsd]
      | some sraw =>
        cases hcd : utf8Decode ce.value with
        | none => simp [hsd, hcd]
        | some craw => simp [hsd, hcd, hb3]
  unfold intakeHandler
  rw [if_neg hm, if_neg hb, hct]
  simp [hparse, hval]

/-- Concrete instantiation of `C10_invalid_utf8`: a `student_id` part whose
value is the lone byte `0xFF` produces the 500 internal error with no
storage attempts. -/
theorem C10_witness :
    intakeHandler (wCfg 100) wDeps wEventBad = (⟨500, .errInternal⟩, []) :=
  C10_invalid_utf8 (wCfg 100) wDeps wEventBad wPartsBad
    ⟨strB "hello", some (strB "a.py")⟩ ⟨[255], none⟩
    ⟨strB "c1", none⟩ ⟨strB "x1", none⟩ (strB "a.py")
    (by decide) (by decide) rfl rfl rfl rfl rfl rfl rfl
    (Or.inl rfl)

/-! ## Multipart decoder properties (claim C4) -/

/-- `getLast?` of a cons, as a match on the tail's `getLast?`. -/
theorem getLast?_cons_match {α : Type} (a : α) (l : List α) :
    (a :: l).getLast? =
      (match l.getLast? with
        | none => some a
        | some b => some b) := by
  cases l with
  | nil => rfl
  | cons x xs =>
    rw [List.getLast?_cons_cons]
    cases h : (x :: xs).getLast? with
    | none =>
      exact absurd (List.getLast?_eq_none_iff.mp h)
        (List.cons_ne_nil x xs)
    | some b => rfl

/-- Looking up a key after a Python-dict insert: the inserted key reads the
new value, every other key is unchanged. -/
theorem dictGet_dictInsert (k k' : ByteL) (v : PartEntry) (d : PartsDict) :
    dictGet k (dictInsert k' v d) =
      if k' = k then some v else dictGet k d := by
  induction d with
  | nil => by_cases h : k' = k <;> simp [dictInsert, dictGet, h]
  | cons p t ih =>
    obtain ⟨k0, v0⟩ := p
    by_cases h0 : k0 = k'
    · subst h0
      by_cases h : k0 = k <;> simp [dictInsert, dictGet, h]
    · by_cases h1 : k0 = k
      · have hkk : ¬ k' = k := fun he => h0 (h1.trans he.symm)
        have hkk' : ¬ k = k' := fun he => hkk he.symm
        simp [dictInsert, dictGet, h0, h1, hkk, hkk']
      · simp [dictInsert, dictGet, h0, h1, ih]

/-- The dict built by folding the parse loop over the segments: a key reads
the last segment entry for that key, falling back to the initial dict. -/
theorem dictGet_foldl_processPart (segs : List ByteL) (d : PartsDict)
    (k : ByteL) :
    dictGet k (segs.foldl processPart d) =
      (match (((segs.filterMap segmentEntry).filter
          fun p => p.1 = k).getLast?) with
        | some p => some p.2
        | none => dictGet k d) := by
  induction segs generalizing d with
  | nil => simp
  | cons s ss ih =>
    rw [List.foldl_cons]
    cases hseg : segmentEntry s with
    | none =>
      rw [show processPart d s = d from by unfold processPart; rw [hseg]]
      rw [ih]
      simp [List.filterMap_cons, hseg]
    | some p =>
      obtain ⟨k', v⟩ := p
      rw [show processPart d s = dictInsert k' v d from by
        unfold processPart; rw [hseg]]
      rw [ih]
      simp only [List.filterMap_cons, hseg]
      by_cases hk : k' = k
      · subst hk
        rw [List.filter_cons_of_pos (by simp)]
        rw [getLast?_cons_match]
        cases hrest : (((ss.filterMap segmentEntry).filter
            fun p => p.1 = k').getLast?) with
        | none => simp [dictGet_dictInsert]
        | some q => simp
      · rw [List.filter_cons_of_neg (by simp [hk])]
        cases hrest : (((ss.filterMap segmentEntry).filter
            fun p => p.1 = k).getLast?) with
        | none => simp [dictGet_dictInsert, hk]
        | some q => simp

/-- Claim C4: the multipart decoder fails exactly when the Content-Type
header lacks a boundary token; given a boundary it returns a mapping in
which each field name reads the last matching segment's (value, filename)
pair (last-write-wins); a segment whose header block has no parseable
`name` attribute is skipped without failing; and a segment whose stripped
content is empty, `--`, or `--\r\n` is skipped as a delimiter artifact. -/
theorem C4_multipart_decoder :
    (∀ contentType bodyBytes,
      (∃ e, parseMultipart contentType bodyBytes = .error e)
        ↔ extractBoundary contentType = none)
    ∧ (∀ contentType bodyBytes parts k,
        parseMultipart contentType bodyBytes = .ok parts →
        dictGet k parts = lastOccurrence contentType bodyBytes k)
    ∧ (∀ seg d hdr content,
        (splitOnFirst (strB "\r\n\r\n") seg = some (hdr, content)
          ∨ (splitOnFirst (strB "\r\n\r\n") seg = none
            ∧ splitOnFirst (strB "\n\n") seg = some (hdr, content))) →
        headerName hdr = none → processPart d seg = d)
    ∧ (∀ seg d,
        (bstrip seg = [] ∨ bstrip seg = strB "--"
          ∨ bstrip seg = strB "--\r\n") →
        processPart d seg = d) := by
  refine ⟨?_, ?_, ?_, ?_⟩
  · intro contentType bodyBytes
    unfold parseMultipart
    cases hbnd : extractBoundary contentType with
    | none => exact ⟨fun _ => rfl, fun _ => ⟨_, rfl⟩⟩
    | some bnd =>
      constructor
      · intro ⟨e, he⟩; cases he
      · intro hc; cases hc
  · intro contentType bodyBytes parts k hok
    unfold parseMultipart at hok
    unfold lastOccurrence
    cases hbnd : extractBoundary contentType with
    | none => rw [hbnd] at hok; cases hok
    | some bnd =>
      rw [hbnd] at hok
      injection hok with hok
      subst hok
      rw [dictGet_foldl_processPart]
      show _ = ((((splitOnSeq (strB "--" ++ bnd) bodyBytes).filterMap
          segmentEntry).filter fun p => p.1 = k).getLast?).map (·.2)
      cases (((splitOnSeq (strB "--" ++ bnd) bodyBytes).filterMap
          segmentEntry).filter fun p => p.1 = k).getLast? <;> rfl
  · intro seg d hdr content hsplit hname
    unfold processPart segmentEntry
    rcases hsplit with hsp | ⟨hsp1, hsp2⟩
    · simp only [hsp, hname]
      split
      · rfl
      · rename_i k v heq
        split at heq <;> cases heq
    · simp only [hsp1, hsp2, hname]
      split
      · rfl
      · rename_i k v heq
        split at heq <;> cases heq
  · intro seg d hstrip
    unfold processPart segmentEntry
    rcases hstrip with hs | hs | hs <;> simp [hs]

/-- Concrete instantiation of `C4_multipart_decoder`: a header without
`boundary=` fails, a duplicated field `x` reads the second occurrence, a
nameless segment and the closing-delimiter segment are both skipped. -/
theorem C4_witness :
    (∃ e, parseMultipart (strB "multipart/form-data") wBodyDup = .error e)
    ∧ dictGet (strB "x") [(strB "x", ⟨strB "second", none⟩)]
        = lastOccurrence wCT wBodyDup (strB "x")
    ∧ processPart [] wSegNoName = []
    ∧ processPart [] (strB "--\r\n") = [] :=
  ⟨(C4_multipart_decoder.1 (strB "multipart/form-data") wBodyDup).mpr rfl,
   C4_multipart_decoder.2.1 wCT wBodyDup [(strB "x", ⟨strB "second", none⟩)]
     (strB "x") rfl,
   C4_multipart_decoder.2.2.1 wSegNoName []
     (strB "\r\nContent-Disposition: form-data") (strB "value\r\n")
     (Or.inl rfl) rfl,
   C4_multipart_decoder.2.2.2 (strB "--\r\n") [] (Or.inr (Or.inl rfl))⟩

end S2P
